import Mathlib

/-!
Verification of the geometry module (`paratemp/geometries.py`): the `Vector`,
`XYZ` and `COM` classes and the free function `rotation_matrix`.

Numeric conventions of the embedding:
* exact real arithmetic (`ℝ`) stands for the floating-point arithmetic of the
  source wherever trigonometry is involved (rotation matrices, dihedral
  angles);
* values parsed from text files are represented exactly as decimal
  mantissa/exponent pairs (`Dec`), which keeps the whole
  parsing/serialization layer computable and kernel-reducible; `Dec.toRat`
  maps them to their rational value;
* a 3-vector is the structure `V3`, mirroring the `Vector` class; a 3 x 3
  array is the structure `G3`;
* Python exceptions are modelled by `Except` with an explicit error type;
* list indexing `xs[i]` is modelled totally with `List.getD`; the claims
  under consideration always supply in-range indices.
-/

/-- Component-wise 3-vector, the value type of `Vector` (a shape-(3,) numpy
array in the source). -/
structure V3 (α : Type) where
  x : α
  y : α
  z : α
deriving DecidableEq, Repr

/-- Generic 3 x 3 array with entries of type `β`: with `β := ℝ` it is a numpy
shape-(3,3) array, with `β := V3 ℝ` it is a shape-(3,3,3) array. -/
structure G3 (β : Type) where
  e00 : β
  e01 : β
  e02 : β
  e10 : β
  e11 : β
  e12 : β
  e20 : β
  e21 : β
  e22 : β
deriving DecidableEq, Repr

/-- Element-wise addition of numpy arrays of equal shape. -/
instance {α : Type} [Add α] : Add (V3 α) :=
  ⟨fun u v => ⟨u.x + v.x, u.y + v.y, u.z + v.z⟩⟩

/-- Element-wise subtraction of numpy arrays of equal shape. -/
instance {α : Type} [Sub α] : Sub (V3 α) :=
  ⟨fun u v => ⟨u.x - v.x, u.y - v.y, u.z - v.z⟩⟩

/-- Element-wise negation. -/
instance {α : Type} [Neg α] : Neg (V3 α) :=
  ⟨fun v => ⟨-v.x, -v.y, -v.z⟩⟩

/-- Broadcast multiplication of a scalar with a shape-(3,) array. -/
def svMul {α : Type} [Mul α] (s : α) (v : V3 α) : V3 α :=
  ⟨s * v.x, s * v.y, s * v.z⟩

/-- Broadcast division of a shape-(3,) array by a scalar. -/
def vsDiv {α : Type} [Div α] (v : V3 α) (s : α) : V3 α :=
  ⟨v.x / s, v.y / s, v.z / s⟩

/-- Broadcast addition of a shape-(3,) array and a scalar. -/
def vsAdd {α : Type} [Add α] (v : V3 α) (s : α) : V3 α :=
  ⟨v.x + s, v.y + s, v.z + s⟩

/-- Broadcast addition of a scalar and a shape-(3,) array. -/
def svAdd {α : Type} [Add α] (s : α) (v : V3 α) : V3 α :=
  ⟨s + v.x, s + v.y, s + v.z⟩

/-- Broadcast subtraction of a shape-(3,) array from a scalar. -/
def svSub {α : Type} [Sub α] (s : α) (v : V3 α) : V3 α :=
  ⟨s - v.x, s - v.y, s - v.z⟩

/-- Broadcast subtraction of a scalar from a shape-(3,) array. -/
def vsSub {α : Type} [Sub α] (v : V3 α) (s : α) : V3 α :=
  ⟨v.x - s, v.y - s, v.z - s⟩

/-- Element-wise product of two shape-(3,) arrays. -/
def vvMul {α : Type} [Mul α] (u v : V3 α) : V3 α :=
  ⟨u.x * v.x, u.y * v.y, u.z * v.z⟩

/-- Dot product of two 3-vectors (`np.dot` on two shape-(3,) arrays). -/
def V3.dot {α : Type} [Mul α] [Add α] (u v : V3 α) : α :=
  u.x * v.x + u.y * v.y + u.z * v.z

/-- Cross product (`np.cross`), as used by `Vector.cross`. -/
def V3.cross {α : Type} [Mul α] [Sub α] (u v : V3 α) : V3 α :=
  ⟨u.y * v.z - u.z * v.y, u.z * v.x - u.x * v.z, u.x * v.y - u.y * v.x⟩

/-- Zero vector. -/
def v3zero {α : Type} [Zero α] : V3 α := ⟨0, 0, 0⟩

/-- Euclidean norm `numpy.linalg.norm` of a 3-vector, also `Vector.mag`. -/
noncomputable def vnorm (v : V3 ℝ) : ℝ :=
  Real.sqrt (v.dot v)

/-- Angle between two vectors: `Vector.diff_angle`, i.e.
`arccos(dot / (norm * norm))`. -/
noncomputable def diff_angle (u v : V3 ℝ) : ℝ :=
  Real.arccos (u.dot v / (vnorm u * vnorm v))

/-- Matrix (shape (3,3)) applied to a shape-(3,) vector: `np.dot(m, v)`. -/
def mulVec {α : Type} [Mul α] [Add α] (m : G3 α) (v : V3 α) : V3 α :=
  ⟨m.e00 * v.x + m.e01 * v.y + m.e02 * v.z,
   m.e10 * v.x + m.e11 * v.y + m.e12 * v.z,
   m.e20 * v.x + m.e21 * v.y + m.e22 * v.z⟩

/-- Quaternion-to-matrix expansion used by `rotation_matrix`: with quaternion
components `(a, b, c, d)` it is the array literal built at the end of the
source function. -/
def qMat (a b c d : ℝ) : G3 ℝ :=
  let aa := a * a
  let bb := b * b
  let cc := c * c
  let dd := d * d
  let bc := b * c
  let ad := a * d
  let ac := a * c
  let ab := a * b
  let bd := b * d
  let cd := c * d
  ⟨aa + bb - cc - dd, 2 * (bc + ad), 2 * (bd - ac),
   2 * (bc - ad), aa + cc - bb - dd, 2 * (cd + ab),
   2 * (bd + ac), 2 * (cd - ab), aa + dd - bb - cc⟩

/-- Free function `rotation_matrix(axis, theta)` for a well-typed call: the
axis is normalized internally (`axis / np.sqrt(np.dot(axis, axis))`), then
`a = cos(theta/2)` and `(b, c, d) = -axis * sin(theta/2)`. -/
noncomputable def rotation_matrix (axis : V3 ℝ) (theta : ℝ) : G3 ℝ :=
  let axisN := vsDiv axis (Real.sqrt (axis.dot axis))
  let a := Real.cos (theta / 2)
  let s := Real.sin (theta / 2)
  let b := -axisN.x * s
  let c := -axisN.y * s
  let d := -axisN.z * s
  qMat a b c d

/-- Method `Vector.rotate(axis, angle)`: build `rotation_matrix(axis, angle)`
and apply it with `np.dot(r_mat, self)`. -/
noncomputable def Vector.rotate (v : V3 ℝ) (axis : V3 ℝ) (angle : ℝ) : V3 ℝ :=
  mulVec (rotation_matrix axis angle) v

/-- Composing the quaternion matrix of `(a, b, c, d)` with the one of the
conjugate quaternion scales by the squared norm of the quaternion; with a unit
quaternion the composition is the identity. -/
theorem qMat_conj_cancel (a b c d : ℝ) (h : a ^ 2 + b ^ 2 + c ^ 2 + d ^ 2 = 1)
    (v : V3 ℝ) : mulVec (qMat a (-b) (-c) (-d)) (mulVec (qMat a b c d) v) = v := by
  obtain ⟨vx, vy, vz⟩ := v
  simp only [qMat, mulVec, V3.mk.injEq]
  refine ⟨?_, ?_, ?_⟩
  · linear_combination (vx * (a ^ 2 + b ^ 2 + c ^ 2 + d ^ 2 + 1)) * h
  · linear_combination (vy * (a ^ 2 + b ^ 2 + c ^ 2 + d ^ 2 + 1)) * h
  · linear_combination (vz * (a ^ 2 + b ^ 2 + c ^ 2 + d ^ 2 + 1)) * h

/-- Sum of squared components of a nonzero vector is positive. -/
theorem dot_self_pos {axis : V3 ℝ} (h : axis ≠ v3zero) : 0 < axis.dot axis := by
  obtain ⟨x, y, z⟩ := axis
  have hnn : (0:ℝ) ≤ x * x + y * y + z * z :=
    add_nonneg (add_nonneg (mul_self_nonneg x) (mul_self_nonneg y)) (mul_self_nonneg z)
  rcases lt_or_eq_of_le hnn with hp | hz
  · simpa [V3.dot] using hp
  · exfalso
    apply h
    have hx : x = 0 := by nlinarith [sq_nonneg x, sq_nonneg y, sq_nonneg z]
    have hy : y = 0 := by nlinarith [sq_nonneg x, sq_nonneg y, sq_nonneg z]
    have hz' : z = 0 := by nlinarith [sq_nonneg x, sq_nonneg y, sq_nonneg z]
    simp [v3zero, hx, hy, hz']

/-- C8. For every vector `v`, every nonzero `axis` and every angle `θ`,
`Vector.rotate` by `θ` about `axis` followed by `Vector.rotate` by `-θ` about
the same axis returns `v`: rotation is invertible over exact real
arithmetic. -/
theorem c8_rotate_inverse (v axis : V3 ℝ) (θ : ℝ) (h : axis ≠ v3zero) :
    Vector.rotate (Vector.rotate v axis θ) axis (-θ) = v := by
  have hn : 0 < axis.dot axis := dot_self_pos h
  have hs : Real.sqrt (axis.dot axis) ^ 2 = axis.dot axis :=
    Real.sq_sqrt hn.le
  have hs0 : Real.sqrt (axis.dot axis) ≠ 0 :=
    (Real.sqrt_pos.mpr hn).ne'
  obtain ⟨x, y, z⟩ := axis
  set s := Real.sqrt (V3.dot ⟨x, y, z⟩ ⟨x, y, z⟩) with hsdef
  have key : Real.cos (θ / 2) ^ 2 + (-(x / s) * Real.sin (θ / 2)) ^ 2 +
      (-(y / s) * Real.sin (θ / 2)) ^ 2 + (-(z / s) * Real.sin (θ / 2)) ^ 2 = 1 := by
    have hdot : V3.dot (⟨x, y, z⟩ : V3 ℝ) ⟨x, y, z⟩ = x * x + y * y + z * z := rfl
    have hsq : s ^ 2 = x * x + y * y + z * z := by rw [hs]; exact hdot
    have htrig : Real.sin (θ / 2) ^ 2 + Real.cos (θ / 2) ^ 2 = 1 :=
      Real.sin_sq_add_cos_sq (θ / 2)
    have hb : (-(x / s) * Real.sin (θ / 2)) ^ 2 + (-(y / s) * Real.sin (θ / 2)) ^ 2 +
        (-(z / s) * Real.sin (θ / 2)) ^ 2 = Real.sin (θ / 2) ^ 2 := by
      field_simp
      linear_combination (-(Real.sin (θ / 2) ^ 2)) * hsq
    linarith [hb, htrig]
  have hmineg : Vector.rotate (Vector.rotate v ⟨x, y, z⟩ θ) ⟨x, y, z⟩ (-θ) =
      mulVec (qMat (Real.cos (θ / 2)) (-(-(x / s) * Real.sin (θ / 2)))
          (-(-(y / s) * Real.sin (θ / 2))) (-(-(z / s) * Real.sin (θ / 2))))
        (mulVec (qMat (Real.cos (θ / 2)) (-(x / s) * Real.sin (θ / 2))
          (-(y / s) * Real.sin (θ / 2)) (-(z / s) * Real.sin (θ / 2))) v) := by
    simp only [Vector.rotate, rotation_matrix, vsDiv, ← hsdef, neg_div,
      Real.cos_neg, Real.sin_neg]
    ring_nf
  rw [hmineg]
  exact qMat_conj_cancel _ _ _ _ key v

/-- Witness for C8 at a concrete input: axis `(1,0,0)` is nonzero and the
rotation of `(0,1,0)` by angle `1` composed with the rotation by `-1` is the
identity there. -/
theorem c8_rotate_inverse_witness :
    (V3.mk (1:ℝ) 0 0 ≠ v3zero) ∧
      Vector.rotate (Vector.rotate (V3.mk (0:ℝ) 1 0) (V3.mk 1 0 0) 1)
        (V3.mk 1 0 0) (-1) = V3.mk 0 1 0 := by
  have h : V3.mk (1:ℝ) 0 0 ≠ v3zero := by
    intro hc
    have := congrArg V3.x hc
    simp [v3zero] at this
  exact ⟨h, c8_rotate_inverse (V3.mk 0 1 0) (V3.mk 1 0 0) 1 h⟩

/-! ## Error model and geometry state -/

/-- Python exceptions raised by the geometry module. `invalidLine` is the
`ValueError("invalid line in xyz file: ...")` carrying the offending split
line; `floatValueError` is the `ValueError` raised by `float()` itself, which
carries only the offending token; `inputError` is the module's `InputError`;
`unknownEnergy` is `UnknownEnergyError`. -/
inductive Err where
  | emptyFile
  | attributeError
  | indexError
  | invalidLine (row : List String)
  | floatValueError (tok : String)
  | inputError
  | unknownEnergy
  | typeError
  | arrayValueError
deriving DecidableEq, Repr

/-- Exact decimal value `mant * 10 ^ exp`, the result of `float()` on the
literals appearing in geometry files. Keeping the unnormalized
mantissa/exponent pair (instead of a normalized `ℚ`) makes every parsing
and formatting computation reduce in the kernel; `Dec.toRat` gives the
numeric value. -/
structure Dec where
  mant : ℤ
  exp : ℤ
deriving DecidableEq, Repr

/-- Numeric value of a parsed decimal. -/
def Dec.toRat (d : Dec) : ℚ :=
  (d.mant : ℚ) * (10 : ℚ) ^ d.exp

/-- State of an `XYZ` object: the attributes assigned by `XYZ.__init__`
(the raw two-line header is irrelevant to the claims and omitted). The
coordinate entry type `κ` is `V3 ℚ` for freshly parsed objects and `V3 ℝ`
for geometries subject to real-valued transformations. -/
structure Geo (κ : Type) where
  atoms : List String
  coords : List κ
  _energy : Option Dec
  _original_energy : Option Dec
deriving DecidableEq, Repr

/-- Property `XYZ.energy`: raise `UnknownEnergyError` when `_energy is None`,
otherwise return it. -/
def Geo.energy {κ : Type} (g : Geo κ) : Except Err Dec :=
  match g._energy with
  | none => .error .unknownEnergy
  | some e => .ok e

/-- Property `XYZ.original_energy`: returns `_original_energy` unchecked. -/
def Geo.original_energy {κ : Type} (g : Geo κ) : Option Dec :=
  g._original_energy

/-- Property `XYZ.n_atoms`: the atom count when it matches the coordinate
count, and nothing (after printing a diagnostic) otherwise. -/
def n_atoms {κ : Type} (g : Geo κ) : Option ℕ :=
  if g.atoms.length = g.coords.length then some g.atoms.length else none

@[simp] theorem v3_add_def {α : Type} [Add α] (u v : V3 α) :
    u + v = V3.mk (u.x + v.x) (u.y + v.y) (u.z + v.z) := rfl

@[simp] theorem v3_sub_def {α : Type} [Sub α] (u v : V3 α) :
    u - v = V3.mk (u.x - v.x) (u.y - v.y) (u.z - v.z) := rfl

/-- Method `XYZ.center_on(index)`: subtract `coords[index]` from every
coordinate; the energy attributes are untouched. -/
def center_on {α : Type} [CommRing α] (g : Geo (V3 α)) (index : ℕ) : Geo (V3 α) :=
  let center := g.coords.getD index v3zero
  { g with coords := g.coords.map (fun coord => coord - center) }

/-- Method `XYZ.move_subset(movement, indices)`: translate the listed
coordinates by `movement` and set `_energy` to `None`. -/
def move_subset {α : Type} [CommRing α] (movement : V3 α) (indices : List ℕ)
    (g : Geo (V3 α)) : Geo (V3 α) :=
  { g with
    coords := indices.foldl
      (fun cs index => cs.set index (cs.getD index v3zero + movement)) g.coords,
    _energy := none }

/-! ## The argument-swapped rotation performed by `rotate_to_x_axis_on`

`XYZ.rotate_to_x_axis_on` calls `coord.rotate(angle, axis)` although the
signature of `Vector.rotate` is `rotate(self, axis, angle)`. Consequently
`rotation_matrix` receives the scalar angle as its `axis` parameter and the
3-vector axis as its `theta` parameter. Under numpy broadcasting the local
`a = np.cos(theta / 2.0)` becomes a 3-vector while `b, c, d` stay scalars,
every entry of the matrix literal becomes a 3-vector, `np.array` of the 3 x 3
nest of 3-vectors has shape (3,3,3), and `np.dot` of that array with the
shape-(3,) coordinate contracts the last axis, leaving a (3,3) matrix. The
definitions below transcribe that computation value by value. -/

/-- Broadcast transcription of `rotation_matrix(axis, theta)` when `axis` is
the scalar angle and `theta` is the 3-vector axis, as in the swapped call:
the result is a shape-(3,3,3) array, one 3-vector per entry of the matrix
literal. -/
noncomputable def rotationMatrixSwapped (axisArg : ℝ) (theta : V3 ℝ) : G3 (V3 ℝ) :=
  let axisN := axisArg / Real.sqrt (axisArg * axisArg)
  let a : V3 ℝ := ⟨Real.cos (theta.x / 2), Real.cos (theta.y / 2), Real.cos (theta.z / 2)⟩
  let sn : V3 ℝ := ⟨Real.sin (theta.x / 2), Real.sin (theta.y / 2), Real.sin (theta.z / 2)⟩
  let bcd := svMul (-axisN) sn
  let b := bcd.x
  let c := bcd.y
  let d := bcd.z
  let aa := vvMul a a
  let bb := b * b
  let cc := c * c
  let dd := d * d
  let bc := b * c
  let ad := svMul d a
  let ac := svMul c a
  let ab := svMul b a
  let bd := b * d
  let cd := c * d
  ⟨vsSub (vsSub (vsAdd aa bb) cc) dd, svMul 2 (svAdd bc ad), svMul 2 (svSub bd ac),
   svMul 2 (svSub bc ad), vsSub (vsSub (vsAdd aa cc) bb) dd, svMul 2 (svAdd cd ab),
   svMul 2 (svAdd bd ac), svMul 2 (svSub cd ab), vsSub (vsSub (vsAdd aa dd) bb) cc⟩

/-- Contraction `np.dot(t, v)` of a shape-(3,3,3) array with a shape-(3,)
array over the last axis, yielding a shape-(3,3) array. -/
def dotLast (t : G3 (V3 ℝ)) (v : V3 ℝ) : G3 ℝ :=
  ⟨t.e00.dot v, t.e01.dot v, t.e02.dot v,
   t.e10.dot v, t.e11.dot v, t.e12.dot v,
   t.e20.dot v, t.e21.dot v, t.e22.dot v⟩

/-- Value of the swapped call `coord.rotate(angle, axis)` executed by
`rotate_to_x_axis_on`: a 3 x 3 matrix, not a vector. -/
noncomputable def rotateSwapped (coord : V3 ℝ) (angle : ℝ) (axis : V3 ℝ) : G3 ℝ :=
  dotLast (rotationMatrixSwapped angle axis) coord

/-- Method `XYZ.rotate_to_x_axis_on(index)` as executed: the angle and axis
are computed from `coords[index]` and the x unit vector, then every
coordinate is replaced by the result of the swapped `rotate` call. -/
noncomputable def rotate_to_x_axis_on (g : Geo (V3 ℝ)) (index : ℕ) : Geo (G3 ℝ) :=
  let vec_x : V3 ℝ := ⟨1, 0, 0⟩
  let angle := diff_angle (g.coords.getD index v3zero) vec_x
  let axis := V3.cross (g.coords.getD index v3zero) vec_x
  ⟨g.atoms, g.coords.map (fun coord => rotateSwapped coord angle axis),
    g._energy, g._original_energy⟩

/-- Method `XYZ.center_and_rotate_on(index1, index2)`. -/
noncomputable def center_and_rotate_on (g : Geo (V3 ℝ)) (index1 index2 : ℕ) :
    Geo (G3 ℝ) :=
  rotate_to_x_axis_on (center_on g index1) index2

/-- C1. Evaluation of the code at a failing input: for the geometry with the
single atom at `(0,0,1)`, the angle computed by `rotate_to_x_axis_on(0)` is
`π/2` and the axis is `(0,1,0)`, and the swapped call `coord.rotate(angle,
axis)` turns the coordinate into the 3 x 3 matrix below (with `s = sin(1/2)`
a nonzero number), not into a non-negative multiple of `(1,0,0)`: the claimed
alignment with the +X axis does not happen, because `rotate_to_x_axis_on`
passes `(angle, axis)` to `Vector.rotate(self, axis, angle)`. -/
theorem c1_swapped_rotation_result :
    rotate_to_x_axis_on ⟨["C"], [⟨0, 0, 1⟩], none, none⟩ 0 =
      ⟨["C"], [G3.mk (1 - Real.sin (1/2) ^ 2) 0 (2 * Real.sin (1/2))
        0 (1 + Real.sin (1/2) ^ 2) 0
        (-(2 * Real.sin (1/2))) 0 (1 - Real.sin (1/2) ^ 2)], none, none⟩ ∧
    Real.sin (1/2) ≠ 0 := by
  have hs0 : Real.sin (1/2 : ℝ) ≠ 0 := by
    have h1 : (0:ℝ) < 1/2 := by norm_num
    have h2 : (1/2 : ℝ) < Real.pi := by
      have h3 := Real.pi_gt_three
      linarith
    exact (Real.sin_pos_of_pos_of_lt_pi h1 h2).ne'
  refine ⟨?_, hs0⟩
  have hang : diff_angle ⟨0, 0, 1⟩ ⟨1, 0, 0⟩ = Real.pi / 2 := by
    simp [diff_angle, V3.dot, Real.arccos_zero]
  have hcross : V3.cross ⟨0, 0, 1⟩ ⟨1, 0, 0⟩ = (⟨0, 1, 0⟩ : V3 ℝ) := by
    simp [V3.cross]
  have hstep : rotate_to_x_axis_on ⟨["C"], [⟨0, 0, 1⟩], none, none⟩ 0 =
      ⟨["C"], [rotateSwapped ⟨0, 0, 1⟩ (diff_angle ⟨0, 0, 1⟩ ⟨1, 0, 0⟩)
        (V3.cross ⟨0, 0, 1⟩ ⟨1, 0, 0⟩)], none, none⟩ := rfl
  rw [hstep, hang, hcross]
  have haxn : (Real.pi / 2) / Real.sqrt ((Real.pi / 2) * (Real.pi / 2)) = 1 := by
    rw [Real.sqrt_mul_self (by positivity)]
    exact div_self (by positivity)
  simp only [rotateSwapped, rotationMatrixSwapped, dotLast, svMul, vvMul,
    vsAdd, vsSub, svAdd, svSub, V3.dot, haxn]
  norm_num [Real.cos_zero, Real.sin_zero, G3.mk.injEq]
  ring

/-! ## Dihedral angle -/

/-- Conversion `np.degrees`. -/
noncomputable def degrees (r : ℝ) : ℝ :=
  r * 180 / Real.pi

/-- Two-argument arctangent `np.arctan2(y, x)` with the standard sign
convention. The code's dihedral and the spec's formula share this function,
so none of the claims depends on its internals. -/
noncomputable def atan2 (y x : ℝ) : ℝ :=
  if 0 < x then Real.arctan (y / x)
  else if x < 0 then
    (if 0 ≤ y then Real.arctan (y / x) + Real.pi else Real.arctan (y / x) - Real.pi)
  else (if 0 < y then Real.pi / 2 else if y < 0 then -(Real.pi / 2) else 0)

/-- Method `XYZ.dihedral_between(a, b, c, d)`, transcribed line by line:
`b0 = -1.0 * (p1 - p0)`, `b1 = p2 - p1`, `b2 = p3 - p2`, `b1 /= norm(b1)`,
`v = b0 - dot(b0, b1) * b1`, `w = b2 - dot(b2, b1) * b1`, result
`degrees(arctan2(dot(cross(b1, v), w), dot(v, w)))`. -/
noncomputable def dihedral_between (g : Geo (V3 ℝ)) (a b c d : ℕ) : ℝ :=
  let p0 := g.coords.getD a v3zero
  let p1 := g.coords.getD b v3zero
  let p2 := g.coords.getD c v3zero
  let p3 := g.coords.getD d v3zero
  let b0 := svMul (-1) (p1 - p0)
  let b1 := p2 - p1
  let b2 := p3 - p2
  let b1n := vsDiv b1 (vnorm b1)
  let v := b0 - svMul (b0.dot b1n) b1n
  let w := b2 - svMul (b2.dot b1n) b1n
  degrees (atan2 ((V3.cross b1n v).dot w) (v.dot w))

/-- Formula stated by the spec for the dihedral: bonds `b0 = p0 - p1` (the
reversed first bond), `b1 = p2 - p1` normalized, `b2 = p3 - p2`; `v` and `w`
are `b0` and `b2` minus their projections onto `b1`; the dihedral is
`atan2(dot(cross(b1, v), w), dot(v, w))` converted to degrees. -/
noncomputable def dihedralSpecFormula (p0 p1 p2 p3 : V3 ℝ) : ℝ :=
  let b0 := p0 - p1
  let b1 := vsDiv (p2 - p1) (vnorm (p2 - p1))
  let b2 := p3 - p2
  let v := b0 - svMul (b0.dot b1) b1
  let w := b2 - svMul (b2.dot b1) b1
  degrees (atan2 ((V3.cross b1 v).dot w) (v.dot w))

/-- C6. For every geometry and all in-range indices `a, b, c, d` whose points
form non-degenerate bonds, `dihedral_between` returns exactly the spec's
plane-projection `atan2` formula on the four coordinates, sign convention
included. -/
theorem c6_dihedral_matches_spec (g : Geo (V3 ℝ)) (a b c d : ℕ)
    (ha : a < g.coords.length) (hb : b < g.coords.length)
    (hc : c < g.coords.length) (hd : d < g.coords.length)
    (hbond0 : g.coords.getD b v3zero - g.coords.getD a v3zero ≠ v3zero)
    (hbond1 : g.coords.getD c v3zero - g.coords.getD b v3zero ≠ v3zero)
    (hbond2 : g.coords.getD d v3zero - g.coords.getD c v3zero ≠ v3zero) :
    dihedral_between g a b c d =
      dihedralSpecFormula (g.coords.getD a v3zero) (g.coords.getD b v3zero)
        (g.coords.getD c v3zero) (g.coords.getD d v3zero) := by
  have hneg : ∀ u w : V3 ℝ, svMul (-1) (u - w) = w - u := by
    intro u w
    cases u
    cases w
    simp only [svMul, v3_sub_def, V3.mk.injEq]
    refine ⟨by ring, by ring, by ring⟩
  simp only [dihedral_between, dihedralSpecFormula, hneg]

/-- Witness for C6 at a concrete geometry: four atoms at `(0,0,0)`, `(1,0,0)`,
`(1,1,0)`, `(1,1,1)` with indices `0 1 2 3` in range and all three bonds
nonzero. -/
theorem c6_dihedral_matches_spec_witness :
    ((0:ℕ) < 4 ∧ (1:ℕ) < 4 ∧ (2:ℕ) < 4 ∧ (3:ℕ) < 4) ∧
      dihedral_between ⟨["C", "C", "C", "C"],
          [⟨0, 0, 0⟩, ⟨1, 0, 0⟩, ⟨1, 1, 0⟩, ⟨1, 1, 1⟩], none, none⟩ 0 1 2 3 =
        dihedralSpecFormula ⟨0, 0, 0⟩ ⟨1, 0, 0⟩ ⟨1, 1, 0⟩ ⟨1, 1, 1⟩ := by
  have hlen : (([⟨0, 0, 0⟩, ⟨1, 0, 0⟩, ⟨1, 1, 0⟩, ⟨1, 1, 1⟩] : List (V3 ℝ))).length = 4 := by
    simp
  refine ⟨⟨by norm_num, by norm_num, by norm_num, by norm_num⟩, ?_⟩
  have h0 : (⟨1, 0, 0⟩ - ⟨0, 0, 0⟩ : V3 ℝ) ≠ v3zero := by
    simp [v3zero, V3.mk.injEq]
  have h1 : (⟨1, 1, 0⟩ - ⟨1, 0, 0⟩ : V3 ℝ) ≠ v3zero := by
    simp [v3zero, V3.mk.injEq]
  have h2 : (⟨1, 1, 1⟩ - ⟨1, 1, 0⟩ : V3 ℝ) ≠ v3zero := by
    simp [v3zero, V3.mk.injEq]
  exact c6_dihedral_matches_spec
    ⟨["C", "C", "C", "C"], [⟨0, 0, 0⟩, ⟨1, 0, 0⟩, ⟨1, 1, 0⟩, ⟨1, 1, 1⟩], none, none⟩
    0 1 2 3 (by simp) (by simp) (by simp) (by simp) h0 h1 h2

/-! ## Frame effect of `move_subset` -/

/-- Reading back the written position after `List.set` in range. -/
theorem getD_set_self {α : Type} (l : List α) (i : ℕ) (v d : α)
    (h : i < l.length) : (l.set i v).getD i d = v := by
  induction l generalizing i with
  | nil => simp at h
  | cons a t ih =>
    cases i with
    | zero => rfl
    | succ k => exact ih k (by simpa using h)

/-- Writing with `List.set` leaves every other position unchanged. -/
theorem getD_set_ne {α : Type} (l : List α) (i j : ℕ) (v d : α)
    (h : j ≠ i) : (l.set i v).getD j d = l.getD j d := by
  induction l generalizing i j with
  | nil => rfl
  | cons a t ih =>
    cases i with
    | zero =>
      cases j with
      | zero => exact absurd rfl h
      | succ k => rfl
    | succ m =>
      cases j with
      | zero => rfl
      | succ k => exact ih m k (fun hc => h (by rw [hc]))

/-- C5. For every geometry with a known energy, `move_subset(v, [i])` with an
in-range index `i` adds exactly `v` to coordinate `i`, leaves every other
coordinate and the atom-label list unchanged, clears the current energy so
that the `energy` property raises the unknown-energy error, and leaves
`original_energy` returning its pre-mutation value. -/
theorem c5_move_subset_frame {α : Type} [CommRing α] (g : Geo (V3 α)) (i : ℕ)
    (mv : V3 α) (hi : i < g.coords.length) (e : Dec) (he : g._energy = some e) :
    (move_subset mv [i] g).coords.getD i v3zero = g.coords.getD i v3zero + mv ∧
    (∀ j, j ≠ i → (move_subset mv [i] g).coords.getD j v3zero = g.coords.getD j v3zero) ∧
    (move_subset mv [i] g).atoms = g.atoms ∧
    (move_subset mv [i] g).energy = .error .unknownEnergy ∧
    (move_subset mv [i] g).original_energy = g.original_energy := by
  have hcoords : (move_subset mv [i] g).coords =
      g.coords.set i (g.coords.getD i v3zero + mv) := rfl
  refine ⟨?_, ?_, rfl, rfl, rfl⟩
  · rw [hcoords]
    exact getD_set_self g.coords i _ _ hi
  · intro j hj
    rw [hcoords]
    exact getD_set_ne g.coords i j _ _ hj

/-- Concrete geometry used by the C5 witness. -/
def gExC5 : Geo (V3 ℚ) :=
  ⟨["C", "H"], [⟨0, 0, 0⟩, ⟨1, 1, 1⟩], some ⟨5, 0⟩, some ⟨5, 0⟩⟩

/-- Witness for C5: a two-atom rational geometry with known energy `5`,
moved at index `0` by `(1,2,3)`. -/
theorem c5_move_subset_frame_witness :
    ((0:ℕ) < gExC5.coords.length ∧ gExC5._energy = some ⟨5, 0⟩) ∧
    (move_subset (⟨1, 2, 3⟩ : V3 ℚ) [0] gExC5).coords.getD 0 v3zero =
      gExC5.coords.getD 0 v3zero + ⟨1, 2, 3⟩ ∧
    (move_subset (⟨1, 2, 3⟩ : V3 ℚ) [0] gExC5).coords.getD 1 v3zero =
      gExC5.coords.getD 1 v3zero ∧
    (move_subset (⟨1, 2, 3⟩ : V3 ℚ) [0] gExC5).atoms = gExC5.atoms ∧
    (move_subset (⟨1, 2, 3⟩ : V3 ℚ) [0] gExC5).energy = .error .unknownEnergy ∧
    (move_subset (⟨1, 2, 3⟩ : V3 ℚ) [0] gExC5).original_energy = some ⟨5, 0⟩ := by
  have h := c5_move_subset_frame gExC5 0 ⟨1, 2, 3⟩ (by decide) ⟨5, 0⟩ (by decide)
  exact ⟨⟨by decide, by decide⟩, h.1, h.2.1 1 (by decide), h.2.2.1, h.2.2.2.1,
    h.2.2.2.2.trans (by decide)⟩

/-! ## Text parsing layer

Python's `str.split()`, `str.strip()`, `float()` and the two fixed regular
expressions of the module, transcribed as computable functions over `ℚ` and
`String`. -/

/-- Accumulator loop for `str.split()`: collect maximal nonwhitespace
runs. -/
def splitWsAux : List Char → List Char → List String
  | [], acc => if acc.isEmpty then [] else [String.mk acc.reverse]
  | c :: rest, acc =>
    if c.isWhitespace then
      (if acc.isEmpty then splitWsAux rest []
       else String.mk acc.reverse :: splitWsAux rest [])
    else splitWsAux rest (c :: acc)

/-- Python `line.split()`: split on runs of whitespace, discarding empty
fields. -/
def splitWs (s : String) : List String :=
  splitWsAux s.data []

/-- Python `str.strip()` on a character list. -/
def charTrim (cs : List Char) : List Char :=
  ((cs.dropWhile Char.isWhitespace).reverse.dropWhile Char.isWhitespace).reverse

/-- Python truth of `line.strip() == ""`. -/
def isBlank (s : String) : Bool :=
  s.data.all Char.isWhitespace

/-- Decimal value of a digit run. -/
def digitsVal (ds : List Char) : ℕ :=
  ds.foldl (fun acc ch => 10 * acc + (ch.toNat - 48)) 0

/-- Core of Python `float()` on a stripped character list: optional sign,
digits with optional fraction, optional exponent; `none` when the text is not
a float literal (e.g. `float("abc")`, which raises `ValueError`). -/
def pyFloatAux (cs : List Char) : Option Dec :=
  let sgnSplit : ℤ × List Char :=
    match cs with
    | '-' :: t => (-1, t)
    | '+' :: t => (1, t)
    | _ => (1, cs)
  let sgn := sgnSplit.1
  let cs1 := sgnSplit.2
  let ip := cs1.takeWhile Char.isDigit
  let cs2 := cs1.drop ip.length
  let fpSplit : List Char × List Char :=
    match cs2 with
    | '.' :: t => (t.takeWhile Char.isDigit, t.drop (t.takeWhile Char.isDigit).length)
    | _ => ([], cs2)
  let fp := fpSplit.1
  let cs3 := fpSplit.2
  if ip.isEmpty && fp.isEmpty then none
  else
    let mant : ℤ := sgn * ((digitsVal ip : ℤ) * (10 : ℤ) ^ fp.length + (digitsVal fp : ℤ))
    match cs3 with
    | [] => some ⟨mant, -(fp.length : ℤ)⟩
    | ch :: t =>
      if ch = 'e' ∨ ch = 'E' then
        let esgnSplit : ℤ × List Char :=
          match t with
          | '-' :: t2 => (-1, t2)
          | '+' :: t2 => (1, t2)
          | _ => (1, t)
        let ed := esgnSplit.2.takeWhile Char.isDigit
        if ed.isEmpty || !(esgnSplit.2.drop ed.length).isEmpty then none
        else some ⟨mant, -(fp.length : ℤ) + esgnSplit.1 * (digitsVal ed : ℤ)⟩
      else none

/-- Python `float(s)`: surrounding whitespace is ignored. -/
def pyFloat? (s : String) : Option Dec :=
  pyFloatAux (charTrim s.data)

/-- Match a literal character sequence at the head, returning the rest. -/
def litMatch : List Char → List Char → Option (List Char)
  | [], cs => some cs
  | _ :: _, [] => none
  | p :: ps, ch :: cs => if p = ch then litMatch ps cs else none

/-- Substring test, used for Python's `"Energy" in line`. -/
def hasSubstr (pat : List Char) : List Char → Bool
  | [] => (litMatch pat []).isSome
  | cs@(_ :: t) => (litMatch pat cs).isSome || hasSubstr pat t

/-- Test `"Energy" in line`. -/
def hasEnergyStr (s : String) : Bool :=
  hasSubstr ['E', 'n', 'e', 'r', 'g', 'y'] s.data

/-- Capture group `-\d+\.\d+` of the fixed energy pattern, anchored at the
head of the character list, returning the float value of the matched text.
Each piece is a maximal-munch scan, which coincides with the regex's
backtracking semantics here because no digit may follow a maximal digit run
and no whitespace character is a minus sign. -/
def negDecimalAt (cs : List Char) : Option Dec :=
  match cs with
  | '-' :: cs2 =>
    if (cs2.takeWhile Char.isDigit).isEmpty then none
    else
      match cs2.drop (cs2.takeWhile Char.isDigit).length with
      | '.' :: cs3 =>
        if (cs3.takeWhile Char.isDigit).isEmpty then none
        else some ⟨-((digitsVal (cs2.takeWhile Char.isDigit) : ℤ) *
            (10 : ℤ) ^ (cs3.takeWhile Char.isDigit).length +
            (digitsVal (cs3.takeWhile Char.isDigit) : ℤ)),
          -((cs3.takeWhile Char.isDigit).length : ℤ)⟩
      | _ => none
  | _ => none

/-- Piece `Energy:` then `\s+` of the pattern, handing the remainder to the
capture group scan. -/
def energyMatchAt (cs : List Char) : Option Dec :=
  match litMatch ['E', 'n', 'e', 'r', 'g', 'y', ':'] cs with
  | none => none
  | some cs1 =>
    if (cs1.takeWhile Char.isWhitespace).isEmpty then none
    else negDecimalAt (cs1.drop (cs1.takeWhile Char.isWhitespace).length)

/-- Leftmost-match search `re.search(r"(?:Energy:\s+)(-\d+\.\d+)", line)`. -/
def energySearchAux : List Char → Option Dec
  | [] => none
  | cs@(_ :: t) =>
    match energyMatchAt cs with
    | some q => some q
    | none => energySearchAux t

/-- Search the energy pattern anywhere in a line. -/
def energySearch (s : String) : Option Dec :=
  energySearchAux s.data

/-- Energy extraction of `XYZ.__init__` on the second header line: when the
line contains the substring `Energy`, a successful regex search yields the
captured float and a failed search leaves `energy_match = None`, so
`energy_match.group(1)` raises `AttributeError`; without the substring the
energy is simply unknown (`None`). -/
def parseEnergyHeader (line : String) : Except Err (Option Dec) :=
  if hasEnergyStr line then
    match energySearch line with
    | some q => .ok (some q)
    | none => .error .attributeError
  else .ok none

/-- Sequenced effectful map: the Python `for` loops that build one list from
another, stopping at the first raised exception. -/
def mapE {α β : Type} (f : α → Except Err β) : List α → Except Err (List β)
  | [] => .ok []
  | a :: t =>
    match f a with
    | .error e => .error e
    | .ok b =>
      match mapE f t with
      | .error e => .error e
      | .ok bs => .ok (b :: bs)

/-- Body of the atom loop of `XYZ.__init__`: `atom[0]` raises `IndexError`
on an empty row, which the `except IndexError` clause converts to
`ValueError("invalid line in xyz file: ...")` naming the row. -/
def xyzAtomRow (row : List String) : Except Err String :=
  match row with
  | [] => .error (.invalidLine row)
  | a :: _ => .ok a

/-- The comprehension `[float(coord) for coord in atom[1:4]]` over given
tokens: `float()` raises `ValueError` naming the first bad token, and this
exception is not caught by the surrounding `except (IndexError, InputError)`
clause. -/
def floatsList : List String → Except Err (List Dec)
  | [] => .ok []
  | tok :: t =>
    match pyFloat? tok with
    | none => .error (.floatValueError tok)
    | some q =>
      match floatsList t with
      | .error e => .error e
      | .ok qs => .ok (q :: qs)

/-- Float conversion of the slice `atom[1:4]` of a row. -/
def rowFloats (row : List String) : Except Err (List Dec) :=
  floatsList ((row.drop 1).take 3)

/-- Body of the coordinate loop of `XYZ.__init__`: convert the three
coordinate fields, then build the `Vector`; fewer than three values make the
`Vector` constructor raise `InputError`, which the `except` clause converts
to `ValueError("invalid line in xyz file: ...")` naming the row. -/
def xyzCoordRow (row : List String) : Except Err (V3 Dec) :=
  match rowFloats row with
  | .error e => .error e
  | .ok qs =>
    match qs with
    | [qx, qy, qz] => .ok ⟨qx, qy, qz⟩
    | _ => .error (.invalidLine row)

/-- Search `([a-z]|[A-Z])+\d+` in a label: some letter immediately followed
by a digit. -/
def adjAlphaDigit : List Char → Bool
  | a :: b :: t => (a.isAlpha && b.isDigit) || adjAlphaDigit (b :: t)
  | _ => false

/-- Trigger condition of `XYZ._fix_atom_names`. -/
def needsFix (s : String) : Bool :=
  adjAlphaDigit s.data

/-- Body of `_fix_atom_names`: keep the leading alphabetic run
(`re.match(r"([a-z]|[A-Z])+", atom).group(0)`); a label with no leading
letter makes `re.match` return `None`, so `.group(0)` raises
`AttributeError`. -/
def stripAlphaRun (s : String) : Except Err String :=
  let p := s.data.takeWhile Char.isAlpha
  if p.isEmpty then .error .attributeError else .ok (String.mk p)

/-- Loop section of `XYZ.__init__` over the whitespace-split data rows: the
atom loop (`self.atoms.append(atom[0])`), the `self.atoms[0]` regex check
with the optional `_fix_atom_names` pass (`self.atoms[0]` on an empty list
raises `IndexError`), then the coordinate loop, in source order. -/
def xyzData (en : Option Dec) (data : List (List String)) :
    Except Err (Geo (V3 Dec)) :=
  match mapE xyzAtomRow data with
  | .error err => .error err
  | .ok atoms0 =>
    match atoms0.head? with
    | none => .error .indexError
    | some a0 =>
      match (if needsFix a0 then mapE stripAlphaRun atoms0 else .ok atoms0) with
      | .error err => .error err
      | .ok atoms =>
        match mapE xyzCoordRow data with
        | .error err => .error err
        | .ok coords => .ok ⟨atoms, coords, en, en⟩

/-- Constructor `XYZ.__init__` on the list of lines returned by
`readlines()` (each line keeps its trailing newline). Fewer than two lines
raise the empty-file `TypeError`; the energy is extracted from line 2; the
data rows are the whitespace-split remaining lines, with a blank last row
discarded (`data[-1]` on an empty list raises `IndexError`); the loops over
the rows are `xyzData`. -/
def xyzInit (lines : List String) : Except Err (Geo (V3 Dec)) :=
  if lines.length < 2 then .error .emptyFile
  else
    match parseEnergyHeader (lines.getD 1 "") with
    | .error err => .error err
    | .ok en =>
      match ((lines.drop 2).map splitWs).getLast? with
      | none => .error .indexError
      | some lastRow =>
        xyzData en
          (if lastRow.isEmpty then ((lines.drop 2).map splitWs).dropLast
           else (lines.drop 2).map splitWs)

/-! ## Claim C4: energy recognition -/

deriving instance DecidableEq for Except

/-- Value of a captured negative decimal literal: nonpositive. -/
theorem dec_neg_toRat_nonpos (a b k : ℕ) :
    Dec.toRat ⟨-((a : ℤ) * (10 : ℤ) ^ k + (b : ℤ)), -(k : ℤ)⟩ ≤ 0 := by
  rw [Dec.toRat]
  have h1 : ((-((a : ℤ) * (10 : ℤ) ^ k + (b : ℤ)) : ℤ) : ℚ) ≤ 0 := by
    rw [Int.cast_nonpos, neg_nonpos]
    positivity
  have h2 : (0:ℚ) ≤ (10 : ℚ) ^ (-(k : ℤ)) :=
    zpow_nonneg (by norm_num) _
  exact mul_nonpos_iff.mpr (Or.inr ⟨h1, h2⟩)

/-- A successful match of the capture group `-\\d+\\.\\d+` yields a
nonpositive value (the leading minus sign is mandatory). -/
theorem negDecimalAt_nonpos (cs : List Char) (d : Dec)
    (h : negDecimalAt cs = some d) : d.toRat ≤ 0 := by
  unfold negDecimalAt at h
  split at h
  · split at h
    · exact absurd h (fun hc => Option.noConfusion hc)
    · split at h
      · split at h
        · exact absurd h (fun hc => Option.noConfusion hc)
        · rw [← Option.some.inj h]
          exact dec_neg_toRat_nonpos _ _ _
      · exact absurd h (fun hc => Option.noConfusion hc)
  · exact absurd h (fun hc => Option.noConfusion hc)

/-- A successful anchored match of the whole energy pattern yields a
nonpositive value. -/
theorem energyMatchAt_nonpos (cs : List Char) (d : Dec)
    (h : energyMatchAt cs = some d) : d.toRat ≤ 0 := by
  unfold energyMatchAt at h
  split at h
  · exact absurd h (fun hc => Option.noConfusion hc)
  · split at h
    · exact absurd h (fun hc => Option.noConfusion hc)
    · exact negDecimalAt_nonpos _ _ h

/-- Any value found by the leftmost search of the energy pattern is
nonpositive. -/
theorem energySearchAux_nonpos (cs : List Char) (d : Dec)
    (h : energySearchAux cs = some d) : d.toRat ≤ 0 := by
  induction cs with
  | nil => simp [energySearchAux] at h
  | cons a t ih =>
    unfold energySearchAux at h
    cases hm : energyMatchAt (a :: t) with
    | none =>
      simp only [hm] at h
      exact ih h
    | some d2 =>
      simp only [hm, Option.some.injEq] at h
      rw [← h]
      exact energyMatchAt_nonpos _ _ hm

/-- Energy stored by `xyzData` in a successfully built state. -/
theorem xyzData_energy (en : Option Dec) (data : List (List String))
    (g : Geo (V3 Dec)) (h : xyzData en data = .ok g) : g._energy = en := by
  unfold xyzData at h
  split at h
  · exact absurd h (fun hc => Except.noConfusion hc)
  · split at h
    · exact absurd h (fun hc => Except.noConfusion hc)
    · split at h
      · exact absurd h (fun hc => Except.noConfusion hc)
      · split at h
        · exact absurd h (fun hc => Except.noConfusion hc)
        · injection h with h2
          rw [← h2]

/-- C4 counterexample: the file whose second line is `Energy: 5.0` (a
positive energy, so the fixed negative-only pattern fails to match while the
substring `Energy` is present) makes `XYZ.__init__` raise `AttributeError`
from `energy_match.group(1)` instead of succeeding with an unknown
energy. -/
theorem c4_positive_energy_counterexample :
    xyzInit ["2\n", "Energy: 5.0\n", "C 0.0 0.0 0.0\n"] =
      .error .attributeError := by decide

/-- C4 amended. Constructing an XYZ succeeds with the energy unknown only
when the second line does not contain the substring `Energy` at all; when
the substring is present but the negative-only pattern does not match (for
example with a positive energy value), construction fails with an
`AttributeError`; every recognized energy value is nonpositive; the energy
stored by a successful construction is exactly the one extracted from
line 2, and a state with unknown energy makes the `energy` property raise
the unknown-energy error. -/
theorem c4_energy_recognition :
    (∀ l, hasEnergyStr l = false → parseEnergyHeader l = .ok none) ∧
    (∀ l, hasEnergyStr l = true → energySearch l = none →
      parseEnergyHeader l = .error .attributeError) ∧
    (∀ l d, energySearch l = some d → d.toRat ≤ 0) ∧
    (∀ lines g, xyzInit lines = .ok g →
      parseEnergyHeader (lines.getD 1 "") = .ok g._energy) ∧
    (∀ g : Geo (V3 Dec), g._energy = none → g.energy = .error .unknownEnergy) := by
  refine ⟨?_, ?_, ?_, ?_, ?_⟩
  · intro l hl
    simp [parseEnergyHeader, hl]
  · intro l hl hs
    simp [parseEnergyHeader, hl, hs]
  · intro l d h
    exact energySearchAux_nonpos _ _ h
  · intro lines g h
    unfold xyzInit at h
    split at h
    · exact absurd h (by simp)
    · split at h
      · exact absurd h (by simp)
      · rename_i en heq
        split at h
        · exact absurd h (by simp)
        · rw [xyzData_energy _ _ _ h]
          exact heq
  · intro g hg
    simp [Geo.energy, hg]

/-- Witness for C4 amended at concrete inputs: a plain comment line yields
an unknown energy, `Energy: 5.0` yields the attribute error, `-2` is the
(nonpositive) value extracted from `Energy: -2.0`, the state parsed from an
energy-free file stores no energy, and its `energy` property raises the
unknown-energy error. -/
theorem c4_energy_recognition_witness :
    parseEnergyHeader "comment\n" = .ok none ∧
    parseEnergyHeader "Energy: 5.0\n" = .error .attributeError ∧
    Dec.toRat ⟨-20, -1⟩ ≤ 0 ∧
    parseEnergyHeader (["2\n", "comment\n", "C 0.0 0.0 0.0\n"].getD 1 "") =
      .ok (Geo._energy (⟨["C"], [⟨⟨0, -1⟩, ⟨0, -1⟩, ⟨0, -1⟩⟩], none, none⟩ : Geo (V3 Dec))) ∧
    Geo.energy (⟨["C"], [⟨⟨0, -1⟩, ⟨0, -1⟩, ⟨0, -1⟩⟩], none, none⟩ : Geo (V3 Dec)) =
      .error .unknownEnergy := by
  refine ⟨c4_energy_recognition.1 "comment\n" (by decide),
    c4_energy_recognition.2.1 "Energy: 5.0\n" (by decide) (by decide),
    c4_energy_recognition.2.2.1 "Energy: -2.0\n" ⟨-20, -1⟩ (by decide),
    c4_energy_recognition.2.2.2.1 ["2\n", "comment\n", "C 0.0 0.0 0.0\n"]
      (⟨["C"], [⟨⟨0, -1⟩, ⟨0, -1⟩, ⟨0, -1⟩⟩], none, none⟩ : Geo (V3 Dec)) (by decide),
    c4_energy_recognition.2.2.2.2
      (⟨["C"], [⟨⟨0, -1⟩, ⟨0, -1⟩, ⟨0, -1⟩⟩], none, none⟩ : Geo (V3 Dec)) rfl⟩

/-! ## Claim C7: construction failures -/

/-- A nonempty list has a last element, and it is a member. -/
theorem last_mem {α : Type} : ∀ (l : List α), l ≠ [] → ∃ a, l.getLast? = some a ∧ a ∈ l
  | [], h => absurd rfl h
  | [a], _ => ⟨a, rfl, by simp⟩
  | a :: b :: t, _ => by
    obtain ⟨c, hc, hmem⟩ := last_mem (b :: t) (by simp)
    exact ⟨c, by rw [List.getLast?_cons_cons]; exact hc, by simp [hmem]⟩

/-- Pointwise success of `mapE`. -/
theorem mapE_ok_map {α β : Type} (f : α → Except Err β) (g : α → β) :
    ∀ l : List α, (∀ a ∈ l, f a = .ok (g a)) → mapE f l = .ok (l.map g)
  | [], _ => rfl
  | a :: t, h => by
    have ha := h a (by simp)
    have ht := mapE_ok_map f g t (fun b hb => h b (by simp [hb]))
    simp only [mapE, ha, ht, List.map_cons]

/-- Failure of `mapE` at the first failing element. -/
theorem mapE_append_error {α β : Type} (f : α → Except Err β)
    (pre : List α) (row : α) (post : List α) (err : Err)
    (hpre : ∀ a ∈ pre, ∃ b, f a = .ok b) (hrow : f row = .error err) :
    mapE f (pre ++ row :: post) = .error err := by
  induction pre with
  | nil =>
    simp only [List.nil_append, mapE, hrow]
  | cons a t ih =>
    obtain ⟨b, hb⟩ := hpre a (by simp)
    have ht := ih (fun c hc => hpre c (by simp [hc]))
    simp only [List.cons_append, mapE, hb, List.append_eq, ht]

/-- A successful `mapE` preserves the length. -/
theorem mapE_length {α β : Type} (f : α → Except Err β) :
    ∀ (l : List α) (bs : List β), mapE f l = .ok bs → bs.length = l.length
  | [], bs, h => by
    simp only [mapE] at h
    rw [← Except.ok.inj h]
    rfl
  | a :: t, bs, h => by
    simp only [mapE] at h
    cases hfa : f a with
    | error e => rw [hfa] at h; exact absurd h (fun hc => Except.noConfusion hc)
    | ok b =>
      rw [hfa] at h
      cases hft : mapE f t with
      | error e => rw [hft] at h; exact absurd h (fun hc => Except.noConfusion hc)
      | ok bs2 =>
        rw [hft] at h
        have h2 := mapE_length f t bs2 hft
        rw [← Except.ok.inj h]
        simp [h2]

/-- The float loop raises the `ValueError` of the first unparseable
token. -/
theorem floatsList_find_error :
    ∀ (l : List String) (tok : String),
      l.find? (fun t => (pyFloat? t).isNone) = some tok →
      floatsList l = .error (.floatValueError tok)
  | [], tok, h => by simp [List.find?] at h
  | a :: t, tok, h => by
    cases hp : pyFloat? a with
    | none =>
      have hfind : List.find? (fun t => (pyFloat? t).isNone) (a :: t) = some a := by
        apply List.find?_cons_of_pos
        simp [hp]
      rw [hfind] at h
      obtain rfl := Option.some.inj h
      simp only [floatsList, hp]
    | some q =>
      have hfind := List.find?_cons_of_neg (p := fun t => (pyFloat? t).isNone)
        (l := t) (a := a) (by simp [hp])
      rw [hfind] at h
      have ht := floatsList_find_error t tok h
      simp only [floatsList, hp, List.append_eq, ht]

/-- A successful `floatsList` has one value per token. -/
theorem floatsList_length :
    ∀ (l : List String) (qs : List Dec), floatsList l = .ok qs → qs.length = l.length
  | [], qs, h => by
    rw [← Except.ok.inj h]
    rfl
  | a :: t, qs, h => by
    cases hp : pyFloat? a with
    | none =>
      simp only [floatsList, hp] at h
      exact absurd h (fun hc => Except.noConfusion hc)
    | some q =>
      simp only [floatsList, hp] at h
      cases hft : floatsList t with
      | error e =>
        rw [hft] at h
        exact absurd h (fun hc => Except.noConfusion hc)
      | ok qs2 =>
        rw [hft] at h
        have h2 := floatsList_length t qs2 hft
        rw [← Except.ok.inj h]
        simp [h2]

/-- A row whose coordinate slice contains an unparseable token makes the
coordinate loop fail with the float conversion error naming that token. -/
theorem xyzCoordRow_float_error (row : List String) (tok : String)
    (h : ((row.drop 1).take 3).find? (fun t => (pyFloat? t).isNone) = some tok) :
    xyzCoordRow row = .error (.floatValueError tok) := by
  unfold xyzCoordRow rowFloats
  rw [floatsList_find_error _ _ h]

/-- A row with fewer than four fields whose coordinate tokens all parse makes
the coordinate loop fail with the `ValueError` naming the row (the `Vector`
constructor's `InputError` converted by the `except` clause). -/
theorem xyzCoordRow_short (row : List String) (qs : List Dec)
    (hok : floatsList ((row.drop 1).take 3) = .ok qs)
    (hlen : row.length < 4) :
    xyzCoordRow row = .error (.invalidLine row) := by
  have hql : qs.length = ((row.drop 1).take 3).length := floatsList_length _ _ hok
  rw [List.length_take, List.length_drop] at hql
  unfold xyzCoordRow rowFloats
  rw [hok]
  have hq3 : qs.length < 3 := by omega
  rcases qs with _ | ⟨q1, _ | ⟨q2, _ | ⟨q3, rest⟩⟩⟩
  · rfl
  · rfl
  · rfl
  · exfalso
    simp only [List.length_cons] at hq3
    omega

/-- Body of the atom loop succeeds on a nonempty row with its first field. -/
theorem xyzAtomRow_headD (r : List String) (h : r ≠ []) :
    xyzAtomRow r = .ok (r.headD "") := by
  cases r with
  | nil => exact absurd rfl h
  | cons a t => rfl

/-- Shared shape of a coordinate-loop failure of `XYZ.__init__`: all data
rows are nonempty (so the atom loop passes), the atom-name fixing is not
triggered, every row before `row` converts successfully, and the conversion
of `row` raises `err`; then the whole construction raises `err`. -/
theorem xyzInit_coord_error (l1 l2 : String) (pre post : List String)
    (row : String) (en : Option Dec) (err : Err)
    (henergy : parseEnergyHeader l2 = .ok en)
    (hall : ∀ r ∈ pre ++ row :: post, splitWs r ≠ [])
    (hfix : needsFix ((splitWs ((pre ++ row :: post).headD "")).headD "") = false)
    (hpre : ∀ r ∈ pre, ∃ v, xyzCoordRow (splitWs r) = .ok v)
    (hrow : xyzCoordRow (splitWs row) = .error err) :
    xyzInit (l1 :: l2 :: (pre ++ row :: post)) = .error err := by
  have hlen2 : ¬ (l1 :: l2 :: (pre ++ row :: post)).length < 2 := by
    simp [List.length_cons]
  obtain ⟨b0, bt, hb⟩ : ∃ b0 bt, pre ++ row :: post = b0 :: bt := by
    cases pre with
    | nil => exact ⟨row, post, rfl⟩
    | cons p ps => exact ⟨p, ps ++ row :: post, rfl⟩
  obtain ⟨lr, hlast, hmem⟩ := last_mem ((pre ++ row :: post).map splitWs) (by simp)
  have hlrne : lr ≠ [] := by
    obtain ⟨r, hr, hrl⟩ := List.mem_map.mp hmem
    exact hrl ▸ hall r hr
  have hlre : lr.isEmpty = false := by
    cases lr with
    | nil => exact absurd rfl hlrne
    | cons c cs => rfl
  have hatoms : mapE xyzAtomRow ((pre ++ row :: post).map splitWs) =
      .ok (((pre ++ row :: post).map splitWs).map (fun r => r.headD "")) := by
    apply mapE_ok_map
    intro r hr
    obtain ⟨r0, hr0, hrl⟩ := List.mem_map.mp hr
    exact xyzAtomRow_headD r (hrl ▸ hall r0 hr0)
  have hhead : ((((pre ++ row :: post).map splitWs).map (fun r => r.headD "")).head?) =
      some ((splitWs ((pre ++ row :: post).headD "")).headD "") := by
    rw [hb]
    rfl
  have hcoords : mapE xyzCoordRow ((pre ++ row :: post).map splitWs) = .error err := by
    rw [List.map_append, List.map_cons]
    apply mapE_append_error
    · intro a ha
      obtain ⟨r, hr, hrl⟩ := List.mem_map.mp ha
      exact hrl ▸ hpre r hr
    · exact hrow
  unfold xyzInit xyzData
  simp only [hlen2, if_false, List.getD_cons_succ, List.getD_cons_zero, henergy,
    List.drop_succ_cons, List.drop_zero, hlast, hlre, Bool.false_eq_true,
    if_false, hatoms, hhead, hfix, hcoords]

/-- C7 counterexample: a data line with the non-numeric coordinate `abc`
fails with the float-conversion `ValueError` carrying only the token `abc`
(the error raised by `float()` is not caught by the clause that builds the
line-naming message), which is different from the malformed-line error that
names the offending line. -/
theorem c7_float_error_counterexample :
    xyzInit ["2\n", "comment\n", "C abc 0.0 0.0\n"] =
      .error (.floatValueError "abc") ∧
    Err.floatValueError "abc" ≠ Err.invalidLine (splitWs "C abc 0.0 0.0\n") := by
  exact ⟨by decide, by decide⟩

/-- C7 amended. Constructing an XYZ from fewer than 2 lines fails with the
empty-file error. For a file whose data rows are nonempty and do not
trigger atom-name fixing: if the first failing row has a non-numeric
coordinate among its coordinate fields, construction fails with the float
conversion error naming only that token (not the line); if all its
coordinate tokens parse but the row has fewer than 4 fields, construction
fails with the malformed-line error naming the row. In each case no state
is returned. -/
theorem c7_parse_failure_modes :
    (∀ lines, lines.length < 2 → xyzInit lines = .error .emptyFile) ∧
    (∀ l1 l2 pre post row en tok,
      parseEnergyHeader l2 = .ok en →
      (∀ r ∈ pre ++ row :: post, splitWs r ≠ []) →
      needsFix ((splitWs ((pre ++ row :: post).headD "")).headD "") = false →
      (∀ r ∈ pre, ∃ v, xyzCoordRow (splitWs r) = .ok v) →
      (((splitWs row).drop 1).take 3).find? (fun t => (pyFloat? t).isNone) = some tok →
      xyzInit (l1 :: l2 :: (pre ++ row :: post)) = .error (.floatValueError tok)) ∧
    (∀ l1 l2 pre post row en qs,
      parseEnergyHeader l2 = .ok en →
      (∀ r ∈ pre ++ row :: post, splitWs r ≠ []) →
      needsFix ((splitWs ((pre ++ row :: post).headD "")).headD "") = false →
      (∀ r ∈ pre, ∃ v, xyzCoordRow (splitWs r) = .ok v) →
      floatsList (((splitWs row).drop 1).take 3) = .ok qs →
      (splitWs row).length < 4 →
      xyzInit (l1 :: l2 :: (pre ++ row :: post)) =
        .error (.invalidLine (splitWs row))) := by
  refine ⟨?_, ?_, ?_⟩
  · intro lines h
    unfold xyzInit
    rw [if_pos h]
  · intro l1 l2 pre post row en tok henergy hall hfix hpre hfind
    exact xyzInit_coord_error l1 l2 pre post row en _ henergy hall hfix hpre
      (xyzCoordRow_float_error _ _ hfind)
  · intro l1 l2 pre post row en qs henergy hall hfix hpre hok hlen
    exact xyzInit_coord_error l1 l2 pre post row en _ henergy hall hfix hpre
      (xyzCoordRow_short _ _ hok hlen)

/-- Witness for C7 amended at three concrete files: a one-line file, a file
with a non-numeric coordinate, and a file with a three-field data line. -/
theorem c7_parse_failure_modes_witness :
    xyzInit ["only\n"] = .error .emptyFile ∧
    xyzInit ["2\n", "comment\n", "C abc 1.0 2.0\n"] =
      .error (.floatValueError "abc") ∧
    xyzInit ["2\n", "comment\n", "C 0.0 0.0\n"] =
      .error (.invalidLine (splitWs "C 0.0 0.0\n")) := by
  refine ⟨c7_parse_failure_modes.1 ["only\n"] (by decide), ?_, ?_⟩
  · exact c7_parse_failure_modes.2.1 "2\n" "comment\n" [] [] "C abc 1.0 2.0\n"
      none "abc" (by decide)
      (by intro r hr; simp only [List.nil_append, List.mem_singleton] at hr; subst hr; decide)
      (by decide)
      (by intro r hr; simp at hr)
      (by decide)
  · exact c7_parse_failure_modes.2.2 "2\n" "comment\n" [] [] "C 0.0 0.0\n"
      none [⟨0, -1⟩, ⟨0, -1⟩] (by decide)
      (by intro r hr; simp only [List.nil_append, List.mem_singleton] at hr; subst hr; decide)
      (by decide)
      (by intro r hr; simp at hr)
      (by decide) (by decide)

/-! ## Claim C3: `Vector` construction arity -/

/-- One positional argument reaching `Vector.__new__` through `*xyz`: either
a number or a sequence of numbers. -/
inductive PyArg where
  | num (q : ℚ)
  | seq (l : List ℚ)
deriving DecidableEq, Repr

/-- Constructor `Vector.__new__(cls, *xyz)`. When `len(xyz) != 3` the code
tries `xyz = xyz[0]`: on an empty tuple the `IndexError` is converted to
`InputError("3 values are required ...")`; when the first argument is a
number, the following `len(xyz)` raises an uncaught `TypeError` (a number
has no `len()`); when it is a sequence of length other than 3 the second
check raises `InputError("Length of vector must be 3.")`. With three values
in hand, `np.array(xyz, dtype=float)` fills the vector; a sequence among
three arguments makes `np.array` itself raise (modelled `arrayValueError`,
reached by no claim). -/
def vectorNew (xyz : List PyArg) : Except Err (V3 ℚ) :=
  if xyz.length = 3 then
    match xyz with
    | [.num a, .num b, .num c] => .ok ⟨a, b, c⟩
    | _ => .error .arrayValueError
  else
    match xyz with
    | [] => .error .inputError
    | .num _ :: _ => .error .typeError
    | .seq s :: _ =>
      if s.length = 3 then
        match s with
        | [a, b, c] => .ok ⟨a, b, c⟩
        | _ => .error .arrayValueError
      else .error .inputError

/-- C3 counterexample: constructing a `Vector` from the two numeric
arguments `1, 2` fails with the uncaught `TypeError` raised by `len()` on a
number, not with the `InputError` the claim demands. -/
theorem c3_two_args_counterexample :
    vectorNew [.num 1, .num 2] = .error .typeError ∧
    Err.typeError ≠ Err.inputError := by
  exact ⟨by decide, by decide⟩

/-- C3 amended. Exactly three numeric arguments and a single 3-element
sequence succeed and build the same vector; zero arguments fail with
`InputError`; a single sequence of any other length fails with
`InputError`; but two or more arguments headed by a number, with a count
other than 3, fail with an uncaught `TypeError` (`len()` of a number), not
with `InputError`. -/
theorem c3_vector_arity :
    (∀ a b c : ℚ, vectorNew [.num a, .num b, .num c] = .ok ⟨a, b, c⟩ ∧
      vectorNew [.seq [a, b, c]] = .ok ⟨a, b, c⟩) ∧
    vectorNew [] = .error .inputError ∧
    (∀ s : List ℚ, s.length ≠ 3 → vectorNew [.seq s] = .error .inputError) ∧
    (∀ (q : ℚ) (rest : List PyArg), (PyArg.num q :: rest).length ≠ 3 →
      vectorNew (.num q :: rest) = .error .typeError) := by
  refine ⟨?_, by decide, ?_, ?_⟩
  · intro a b c
    exact ⟨rfl, rfl⟩
  · intro s hs
    simp [vectorNew, hs]
  · intro q rest h
    simp only [vectorNew, if_neg h]

/-- Witness for C3 amended at concrete argument lists of length 3, 0, a
2-element sequence, and 4 numbers. -/
theorem c3_vector_arity_witness :
    vectorNew [.num 1, .num 2, .num 3] = .ok ⟨1, 2, 3⟩ ∧
    vectorNew [.seq [1, 2, 3]] = .ok ⟨1, 2, 3⟩ ∧
    vectorNew [] = .error .inputError ∧
    vectorNew [.seq [1, 2]] = .error .inputError ∧
    vectorNew [.num 1, .num 2, .num 3, .num 4] = .error .typeError := by
  refine ⟨(c3_vector_arity.1 1 2 3).1, (c3_vector_arity.1 1 2 3).2,
    c3_vector_arity.2.1,
    c3_vector_arity.2.2.1 [1, 2] (by decide),
    c3_vector_arity.2.2.2 1 [.num 2, .num 3, .num 4] (by decide)⟩

/-! ## The COM file model -/

/-- Zero decimal, default element for coordinate lists. -/
instance : Zero Dec := ⟨⟨0, 0⟩⟩

/-- State of a `COM` object: exactly the attributes assigned by
`COM.__init__` (the `file` name aside). There is no `_energy` and no
`_original_energy` attribute: `COM.__init__` does not call the parent
constructor and never assigns them. -/
structure COMstate where
  _header : List String
  _title : List String
  _cm : List String
  atoms : List String
  coords : List (V3 Dec)
  _footer : List String
deriving DecidableEq, Repr

/-- Section marker of the `COM._parser` state machine. -/
inductive CSec where
  | header
  | title
  | chargeMult
  | geom
  | optInput
deriving DecidableEq, Repr

/-- Accumulated state of the line scanner of `COM._parser`. -/
structure CPState where
  header : List String
  title : List String
  cm : List String
  footer : List String
  data : List (List String)
  sec : CSec
deriving DecidableEq, Repr

/-- One line of the five-state scanner of `COM._parser`: the header and
title sections append the line (blank included) and move on after a blank
line; the charge/multiplicity section takes exactly one line; the geometry
section splits nonblank lines into `data` and a blank line moves to the
footer; the footer collects the rest verbatim. -/
def comStep (st : CPState) (line : String) : CPState :=
  match st.sec with
  | .header =>
    { st with header := st.header ++ [line],
              sec := if isBlank line then .title else .header }
  | .title =>
    { st with title := st.title ++ [line],
              sec := if isBlank line then .chargeMult else .title }
  | .chargeMult => { st with cm := st.cm ++ [line], sec := .geom }
  | .geom =>
    if isBlank line then { st with sec := .optInput }
    else { st with data := st.data ++ [splitWs line] }
  | .optInput => { st with footer := st.footer ++ [line] }

/-- The scanner of `COM._parser` over all lines. -/
def comParse (lines : List String) : CPState :=
  lines.foldl comStep ⟨[], [], [], [], [], .header⟩

/-- Comprehension body `atom[0]` of `COM._parser`: an empty row raises a
raw `IndexError` (no `except` clause here). -/
def comAtomRow (row : List String) : Except Err String :=
  match row with
  | [] => .error .indexError
  | a :: _ => .ok a

/-- Comprehension body `Vector([float(coord) for coord in atom[1:4]])` of
`COM._parser`: unlike in `XYZ.__init__`, both the float `ValueError` and
the `Vector` constructor's `InputError` propagate uncaught. -/
def comCoordRow (row : List String) : Except Err (V3 Dec) :=
  match rowFloats row with
  | .error e => .error e
  | .ok qs =>
    match qs with
    | [qx, qy, qz] => .ok ⟨qx, qy, qz⟩
    | _ => .error .inputError

/-- Conversion of the scanned sections into the `COM` attributes: the atom
comprehension runs first, then the coordinate comprehension. -/
def comBuild (st : CPState) : Except Err COMstate :=
  match mapE comAtomRow st.data with
  | .error e => .error e
  | .ok atoms =>
    match mapE comCoordRow st.data with
    | .error e => .error e
    | .ok coords => .ok ⟨st.header, st.title, st.cm, atoms, coords, st.footer⟩

/-- Constructor `COM.__init__`: read the lines and run `_parser`. -/
def comInit (lines : List String) : Except Err COMstate :=
  comBuild (comParse lines)

/-- Concatenation `"".join(output_list)`. -/
def strCat : List String → String
  | [] => ""
  | s :: t => s ++ strCat t

/-- Left-justification `{: <10s}` (pad right with spaces to the width). -/
def padR (s : String) (w : ℕ) : String :=
  s ++ String.mk (List.replicate (w - s.length) ' ')

/-- Right-justification to a width, space fill. -/
def padL (s : String) (w : ℕ) : String :=
  String.mk (List.replicate (w - s.length) ' ') ++ s

/-- Natural number rendered with leading zeros to a width. -/
def zpad (n : ℕ) (w : ℕ) : String :=
  String.mk (List.replicate (w - (Nat.repr n).length) '0') ++ Nat.repr n

/-- Round half to even of `m / p` for a positive integer `p` (the rounding
of Python's float formatting, applied to the exact decimal value). -/
def rheDiv (m p : ℤ) : ℤ :=
  let q := Int.fdiv m p
  let r := m - q * p
  if 2 * r < p then q
  else if p < 2 * r then q + 1
  else if q % 2 = 0 then q else q + 1

/-- The integer `round(value * 10^5)` of a decimal, half to even. -/
def dec100000 (d : Dec) : ℤ :=
  if 0 ≤ d.exp + 5 then d.mant * 10 ^ (d.exp + 5).toNat
  else rheDiv d.mant (10 ^ (-(d.exp + 5)).toNat)

/-- Fixed-point formatting `{: > 10.5f}`: sign of the value (`-` or the
sign-space), integral digits, point, five fractional digits, right-aligned
in ten columns. A negative zero double would keep its minus sign in Python;
`Dec` collapses `-0.0` to `0.0`, a value no claim exercises. -/
def fmtF (d : Dec) : String :=
  let n := dec100000 d
  let sgn := if d.mant < 0 then "-" else " "
  let m := n.natAbs
  padL (sgn ++ Nat.repr (m / 100000) ++ "." ++ zpad (m % 100000) 5) 10

/-- One line of the atom table: the format string
`"   {0: <10s} {1.x: > 10.5f} {1.y: > 10.5f} {1.z: > 10.5f}\n"`. -/
def fmtLine (lbl : String) (v : V3 Dec) : String :=
  "   " ++ padR lbl 10 ++ " " ++ fmtF v.x ++ " " ++ fmtF v.y ++ " " ++ fmtF v.z ++ "\n"

/-- Serialization `COM.__str__`: header, title and charge/multiplicity
sections verbatim, the formatted atom table, one bare newline, then the
footer verbatim. -/
def comStr (g : COMstate) : String :=
  strCat g._header ++ strCat g._title ++ strCat g._cm ++
    strCat ((List.range g.atoms.length).map
      (fun i => fmtLine (g.atoms.getD i "") (g.coords.getD i v3zero))) ++
    "\n" ++ strCat g._footer

/-- Parse which then writes back: `str(COM(f))`. -/
def comRoundTrip (lines : List String) : Except Err String :=
  match comInit lines with
  | .error e => .error e
  | .ok g => .ok (comStr g)

/-! ## Claim C2: COM round-trip -/

/-- C2 counterexample: a file conforming to the five-section grammar whose
geometry line is `C 1.0 2.0 3.0` does not survive parse-then-write
byte-for-byte: the writer re-serializes the geometry line in the
fixed-width format `   C             1.00000    2.00000    3.00000`. -/
theorem c2_roundtrip_counterexample :
    comRoundTrip ["%chk=x\n", "\n", "title\n", "\n", "0 1\n",
        "C 1.0 2.0 3.0\n", "\n", "opt\n"] ≠
      .ok (strCat ["%chk=x\n", "\n", "title\n", "\n", "0 1\n",
        "C 1.0 2.0 3.0\n", "\n", "opt\n"]) := by decide

/-- The scanner consumes the header section: nonblank lines stay in the
header state, the terminating blank line is still appended to the header
and moves to the title state. -/
theorem comParse_header_section :
    ∀ (H : List String) (h0 t0 c0 f0 : List String) (d0 : List (List String))
      (bh : String) (rest : List String),
      (∀ l ∈ H, isBlank l = false) → isBlank bh = true →
      List.foldl comStep ⟨h0, t0, c0, f0, d0, .header⟩ (H ++ bh :: rest) =
        List.foldl comStep ⟨h0 ++ (H ++ [bh]), t0, c0, f0, d0, .title⟩ rest
  | [], h0, t0, c0, f0, d0, bh, rest, _, hbh => by
    simp only [List.nil_append, List.foldl_cons]
    congr 1
    simp [comStep, hbh]
  | l :: H, h0, t0, c0, f0, d0, bh, rest, hH, hbh => by
    have hl : isBlank l = false := hH l (by simp)
    simp only [List.cons_append, List.foldl_cons]
    have hstep : comStep ⟨h0, t0, c0, f0, d0, .header⟩ l =
        ⟨h0 ++ [l], t0, c0, f0, d0, .header⟩ := by
      simp [comStep, hl]
    rw [hstep, comParse_header_section H (h0 ++ [l]) t0 c0 f0 d0 bh rest
      (fun a ha => hH a (by simp [ha])) hbh]
    congr 1
    simp [List.append_assoc]

/-- The scanner consumes the title section the same way. -/
theorem comParse_title_section :
    ∀ (T : List String) (h0 t0 c0 f0 : List String) (d0 : List (List String))
      (bt : String) (rest : List String),
      (∀ l ∈ T, isBlank l = false) → isBlank bt = true →
      List.foldl comStep ⟨h0, t0, c0, f0, d0, .title⟩ (T ++ bt :: rest) =
        List.foldl comStep ⟨h0, t0 ++ (T ++ [bt]), c0, f0, d0, .chargeMult⟩ rest
  | [], h0, t0, c0, f0, d0, bt, rest, _, hbt => by
    simp only [List.nil_append, List.foldl_cons]
    congr 1
    simp [comStep, hbt]
  | l :: T, h0, t0, c0, f0, d0, bt, rest, hT, hbt => by
    have hl : isBlank l = false := hT l (by simp)
    simp only [List.cons_append, List.foldl_cons]
    have hstep : comStep ⟨h0, t0, c0, f0, d0, .title⟩ l =
        ⟨h0, t0 ++ [l], c0, f0, d0, .title⟩ := by
      simp [comStep, hl]
    rw [hstep, comParse_title_section T h0 (t0 ++ [l]) c0 f0 d0 bt rest
      (fun a ha => hT a (by simp [ha])) hbt]
    congr 1
    simp [List.append_assoc]

/-- The scanner takes exactly one charge/multiplicity line. -/
theorem comParse_cm_section (h0 t0 c0 f0 : List String)
    (d0 : List (List String)) (cmL : String) (rest : List String) :
    List.foldl comStep ⟨h0, t0, c0, f0, d0, .chargeMult⟩ (cmL :: rest) =
      List.foldl comStep ⟨h0, t0, c0 ++ [cmL], f0, d0, .geom⟩ rest := rfl

/-- The scanner splits the nonblank geometry lines into data rows and drops
the terminating blank line, moving to the footer state. -/
theorem comParse_geom_section :
    ∀ (G : List String) (h0 t0 c0 f0 : List String) (d0 : List (List String))
      (bg : String) (rest : List String),
      (∀ l ∈ G, isBlank l = false) → isBlank bg = true →
      List.foldl comStep ⟨h0, t0, c0, f0, d0, .geom⟩ (G ++ bg :: rest) =
        List.foldl comStep ⟨h0, t0, c0, f0, d0 ++ G.map splitWs, .optInput⟩ rest
  | [], h0, t0, c0, f0, d0, bg, rest, _, hbg => by
    simp only [List.nil_append, List.foldl_cons]
    congr 1
    simp [comStep, hbg]
  | l :: G, h0, t0, c0, f0, d0, bg, rest, hG, hbg => by
    have hl : isBlank l = false := hG l (by simp)
    simp only [List.cons_append, List.foldl_cons]
    have hstep : comStep ⟨h0, t0, c0, f0, d0, .geom⟩ l =
        ⟨h0, t0, c0, f0, d0 ++ [splitWs l], .geom⟩ := by
      simp [comStep, hl]
    rw [hstep, comParse_geom_section G h0 t0 c0 f0 (d0 ++ [splitWs l]) bg rest
      (fun a ha => hG a (by simp [ha])) hbg]
    congr 1
    simp [List.append_assoc]

/-- The scanner collects every remaining line into the footer verbatim. -/
theorem comParse_footer_section :
    ∀ (F : List String) (h0 t0 c0 f0 : List String) (d0 : List (List String)),
      List.foldl comStep ⟨h0, t0, c0, f0, d0, .optInput⟩ F =
        ⟨h0, t0, c0, f0 ++ F, d0, .optInput⟩
  | [], h0, t0, c0, f0, d0 => by simp
  | l :: F, h0, t0, c0, f0, d0 => by
    simp only [List.foldl_cons]
    have hstep : comStep ⟨h0, t0, c0, f0, d0, .optInput⟩ l =
        ⟨h0, t0, c0, f0 ++ [l], d0, .optInput⟩ := rfl
    rw [hstep, comParse_footer_section F h0 t0 c0 (f0 ++ [l]) d0]
    congr 1
    simp [List.append_assoc]

/-- Decomposition of `COM._parser` on a file in the five-section grammar:
header, title, charge/multiplicity and footer are kept verbatim; the
geometry lines are whitespace-split into the data rows. -/
theorem comParse_wellformed (H T G F : List String) (bh bt bg cmL : String)
    (hH : ∀ l ∈ H, isBlank l = false) (hbh : isBlank bh = true)
    (hT : ∀ l ∈ T, isBlank l = false) (hbt : isBlank bt = true)
    (hG : ∀ l ∈ G, isBlank l = false) (hbg : isBlank bg = true) :
    comParse (H ++ bh :: (T ++ bt :: (cmL :: (G ++ bg :: F)))) =
      ⟨H ++ [bh], T ++ [bt], [cmL], F, G.map splitWs, .optInput⟩ := by
  unfold comParse
  rw [comParse_header_section H [] [] [] [] [] bh _ hH hbh,
    comParse_title_section T _ [] [] [] [] bt _ hT hbt,
    comParse_cm_section,
    comParse_geom_section G _ _ _ [] [] bg F hG hbg,
    comParse_footer_section]
  simp

/-- Canonical-form check for a geometry line: it parses into a label and
three coordinates, and re-serializing them in the fixed-width format
reproduces the line exactly. -/
def fmtRow (l : String) : Option String :=
  match splitWs l with
  | [] => none
  | lbl :: rest =>
    match comCoordRow (lbl :: rest) with
    | .error _ => none
    | .ok v => some (fmtLine lbl v)

/-- Unfolding of a canonical geometry line. -/
theorem fmtRow_some (l : String) (h : fmtRow l = some l) :
    ∃ lbl v, comAtomRow (splitWs l) = .ok lbl ∧ comCoordRow (splitWs l) = .ok v ∧
      fmtLine lbl v = l := by
  unfold fmtRow at h
  cases hs : splitWs l with
  | nil =>
    simp only [hs] at h
    exact Option.noConfusion h
  | cons lbl rest =>
    simp only [hs] at h
    cases hc : comCoordRow (lbl :: rest) with
    | error e =>
      simp only [hc] at h
      exact Option.noConfusion h
    | ok v =>
      simp only [hc] at h
      exact ⟨lbl, v, rfl, rfl, Option.some.inj h⟩

/-- On canonical geometry lines both comprehensions of `COM._parser`
succeed and the atom table serializes back to the original lines. -/
theorem comGeom_ok :
    ∀ (G : List String), (∀ l ∈ G, fmtRow l = some l) →
      ∃ atoms coords, mapE comAtomRow (G.map splitWs) = .ok atoms ∧
        mapE comCoordRow (G.map splitWs) = .ok coords ∧
        atoms.length = G.length ∧
        (List.range atoms.length).map
          (fun i => fmtLine (atoms.getD i "") (coords.getD i v3zero)) = G
  | [], _ => ⟨[], [], rfl, rfl, rfl, rfl⟩
  | l :: G, h => by
    obtain ⟨lbl, v, hA, hC, hF⟩ := fmtRow_some l (h l (by simp))
    obtain ⟨atoms, coords, hAs, hCs, hLen, hSer⟩ :=
      comGeom_ok G (fun a ha => h a (by simp [ha]))
    refine ⟨lbl :: atoms, v :: coords, ?_, ?_, by simp [hLen], ?_⟩
    · simp only [List.map_cons, mapE, hA, hAs]
    · simp only [List.map_cons, mapE, hC, hCs]
    · rw [show (lbl :: atoms).length = atoms.length + 1 from rfl,
        List.range_succ_eq_map]
      simp only [List.map_cons, List.map_map, List.getD_cons_zero]
      rw [hF]
      congr 1

/-- Concatenation distributes over list append. -/
theorem strCat_append : ∀ (A B : List String), strCat (A ++ B) = strCat A ++ strCat B
  | [], B => by simp [strCat]
  | a :: A, B => by
    simp only [List.cons_append, strCat, List.append_eq, strCat_append A B,
      String.append_assoc]

/-- C2 amended. For a COM file in the five-section grammar whose geometry
lines are already in the canonical fixed-width format and whose
geometry-terminating blank line is a bare newline, parse-then-write
reproduces the file byte-for-byte; in general the non-geometry sections are
reproduced verbatim while geometry lines are re-serialized in the
fixed-width format. -/
theorem c2_roundtrip_canonical (H T G F : List String) (bh bt cmL : String)
    (hH : ∀ l ∈ H, isBlank l = false) (hbh : isBlank bh = true)
    (hT : ∀ l ∈ T, isBlank l = false) (hbt : isBlank bt = true)
    (hG : ∀ l ∈ G, isBlank l = false)
    (hcanon : ∀ l ∈ G, fmtRow l = some l) :
    comRoundTrip (H ++ bh :: (T ++ bt :: (cmL :: (G ++ "\n" :: F)))) =
      .ok (strCat (H ++ bh :: (T ++ bt :: (cmL :: (G ++ "\n" :: F))))) := by
  obtain ⟨atoms, coords, hAs, hCs, hLen, hSer⟩ := comGeom_ok G hcanon
  unfold comRoundTrip comInit comBuild
  rw [comParse_wellformed H T G F bh bt "\n" cmL hH hbh hT hbt hG (by decide)]
  simp only [hAs, hCs]
  unfold comStr
  simp only [hSer]
  simp [strCat_append, strCat, String.append_assoc]

/-- Witness for C2 amended at a concrete well-formed file whose single
geometry line is already in the canonical fixed-width format: the
round-trip is byte-for-byte. -/
theorem c2_roundtrip_canonical_witness :
    comRoundTrip ["%chk=x\n", "\n", "t\n", "\n", "0 1\n",
        "   C             1.00000    2.00000    3.00000\n", "\n", "opt\n"] =
      .ok (strCat ["%chk=x\n", "\n", "t\n", "\n", "0 1\n",
        "   C             1.00000    2.00000    3.00000\n", "\n", "opt\n"]) := by
  exact c2_roundtrip_canonical ["%chk=x\n"] ["t\n"]
    ["   C             1.00000    2.00000    3.00000\n"] ["opt\n"] "\n" "\n" "0 1\n"
    (by intro l hl; simp only [List.mem_singleton] at hl; subst hl; decide)
    (by decide)
    (by intro l hl; simp only [List.mem_singleton] at hl; subst hl; decide)
    (by decide)
    (by intro l hl; simp only [List.mem_singleton] at hl; subst hl; decide)
    (by intro l hl; simp only [List.mem_singleton] at hl; subst hl; decide)

/-! ## Claim C9: energy access on COM objects -/

/-- Property access `com.energy` through the inherited `XYZ.energy`: the
property body reads `self._energy`, but `COM.__init__` does not call the
parent constructor and assigns only `file`, `_header`, `_title`, `_cm`,
`atoms`, `coords` and `_footer` (the fields of `COMstate`), never
`_energy`; on a freshly constructed `COM` object the attribute lookup
itself raises `AttributeError`, before the `None` check of the property
body can run. -/
def COM.energy (_ : COMstate) : Except Err Dec :=
  .error .attributeError

/-- Property access `com.original_energy` through the inherited
`XYZ.original_energy`: it reads `self._original_energy`, which
`COM.__init__` never assigns either, so the lookup raises
`AttributeError`. -/
def COM.original_energy (_ : COMstate) : Except Err Dec :=
  .error .attributeError

/-- C9 counterexample: on the COM object parsed from a concrete well-formed
file, accessing `energy` raises `AttributeError` — a different failure from
the documented unknown-energy error the claim requires. -/
theorem c9_com_energy_counterexample :
    comInit ["h\n", "\n", "t\n", "\n", "0 1\n", "C 1.0 2.0 3.0\n", "\n", "opt\n"] =
      .ok ⟨["h\n", "\n"], ["t\n", "\n"], ["0 1\n"], ["C"],
        [⟨⟨10, -1⟩, ⟨20, -1⟩, ⟨30, -1⟩⟩], ["opt\n"]⟩ ∧
    COM.energy ⟨["h\n", "\n"], ["t\n", "\n"], ["0 1\n"], ["C"],
        [⟨⟨10, -1⟩, ⟨20, -1⟩, ⟨30, -1⟩⟩], ["opt\n"]⟩ = .error .attributeError ∧
    Err.attributeError ≠ Err.unknownEnergy := by
  exact ⟨by decide, rfl, by decide⟩

/-- C9 amended. On every successfully constructed COM object, accessing
`energy` or `original_energy` raises `AttributeError` (the `_energy` and
`_original_energy` attributes are never assigned by `COM.__init__`), which
is not the distinct unknown-energy error: the accessors do not degrade
gracefully. -/
theorem c9_com_energy_attribute_error :
    (∀ g : COMstate, COM.energy g = .error .attributeError) ∧
    (∀ g : COMstate, COM.original_energy g = .error .attributeError) ∧
    Err.attributeError ≠ Err.unknownEnergy := by
  exact ⟨fun _ => rfl, fun _ => rfl, by decide⟩

/-! ## Claim C10: atom/coordinate count invariant -/

/-- The loops of `XYZ.__init__` produce one atom label and one coordinate
vector per data row. -/
theorem xyzData_lengths (en : Option Dec) (data : List (List String))
    (g : Geo (V3 Dec)) (h : xyzData en data = .ok g) :
    g.atoms.length = g.coords.length := by
  unfold xyzData at h
  split at h
  · exact absurd h (fun hc => Except.noConfusion hc)
  rename_i x1 atoms0 hAs
  split at h
  · exact absurd h (fun hc => Except.noConfusion hc)
  rename_i x2 a0 hHead
  split at h
  · exact absurd h (fun hc => Except.noConfusion hc)
  rename_i x3 atoms hFixEq
  split at h
  · exact absurd h (fun hc => Except.noConfusion hc)
  rename_i x4 coords hCs
  injection h with h2
  rw [← h2]
  have h1 : atoms0.length = data.length := mapE_length _ _ _ hAs
  have h3 : coords.length = data.length := mapE_length _ _ _ hCs
  have h4 : atoms.length = atoms0.length := by
    cases hn : needsFix a0 with
    | false =>
      rw [hn] at hFixEq
      simp only [Bool.false_eq_true, if_false] at hFixEq
      rw [← Except.ok.inj hFixEq]
    | true =>
      rw [hn] at hFixEq
      simp only [if_true] at hFixEq
      exact mapE_length _ _ _ hFixEq
  simp [h1, h3, h4]

/-- The comprehensions of `COM._parser` produce one atom label and one
coordinate vector per data row. -/
theorem comBuild_lengths (st : CPState) (g : COMstate)
    (h : comBuild st = .ok g) : g.atoms.length = g.coords.length := by
  unfold comBuild at h
  split at h
  · exact absurd h (fun hc => Except.noConfusion hc)
  rename_i x1 atoms hAs
  split at h
  · exact absurd h (fun hc => Except.noConfusion hc)
  rename_i x2 coords hCs
  injection h with h2
  rw [← h2]
  show atoms.length = coords.length
  rw [mapE_length _ _ _ hAs, mapE_length _ _ _ hCs]

/-- A fold of in-place element updates keeps the list length. -/
theorem foldl_set_length {γ : Type} (f : List γ → ℕ → γ) :
    ∀ (idxs : List ℕ) (cs : List γ),
      (idxs.foldl (fun cs j => cs.set j (f cs j)) cs).length = cs.length
  | [], _ => rfl
  | j :: idxs, cs => by
    rw [List.foldl_cons, foldl_set_length f idxs _]
    simp

/-- C10. Every XYZ or COM object built by a successful construction has as
many atom labels as coordinate vectors, and `center_on`,
`rotate_to_x_axis_on`, `center_and_rotate_on` and `move_subset` each
preserve this equality, so on such states `n_atoms` always returns the
count and its mismatch-diagnostic branch is unreachable. -/
theorem c10_atom_coord_invariant :
    (∀ lines g, xyzInit lines = .ok g → g.atoms.length = g.coords.length) ∧
    (∀ lines g, comInit lines = .ok g → g.atoms.length = g.coords.length) ∧
    (∀ (g : Geo (V3 ℝ)) (i : ℕ), g.atoms.length = g.coords.length →
      (center_on g i).atoms.length = (center_on g i).coords.length) ∧
    (∀ (g : Geo (V3 ℝ)) (i : ℕ), g.atoms.length = g.coords.length →
      (rotate_to_x_axis_on g i).atoms.length = (rotate_to_x_axis_on g i).coords.length) ∧
    (∀ (g : Geo (V3 ℝ)) (i j : ℕ), g.atoms.length = g.coords.length →
      (center_and_rotate_on g i j).atoms.length =
        (center_and_rotate_on g i j).coords.length) ∧
    (∀ (g : Geo (V3 ℝ)) (mv : V3 ℝ) (idxs : List ℕ),
      g.atoms.length = g.coords.length →
      (move_subset mv idxs g).atoms.length = (move_subset mv idxs g).coords.length) ∧
    (∀ (κ : Type) (g : Geo κ), g.atoms.length = g.coords.length →
      n_atoms g = some g.atoms.length) := by
  refine ⟨?_, ?_, ?_, ?_, ?_, ?_, ?_⟩
  · intro lines g h
    unfold xyzInit at h
    split at h
    · exact absurd h (fun hc => Except.noConfusion hc)
    split at h
    · exact absurd h (fun hc => Except.noConfusion hc)
    split at h
    · exact absurd h (fun hc => Except.noConfusion hc)
    exact xyzData_lengths _ _ _ h
  · intro lines g h
    exact comBuild_lengths _ _ h
  · intro g i h
    simpa [center_on] using h
  · intro g i h
    simpa [rotate_to_x_axis_on] using h
  · intro g i j h
    simpa [center_and_rotate_on, rotate_to_x_axis_on, center_on] using h
  · intro g mv idxs h
    show g.atoms.length = _
    rw [show (move_subset mv idxs g).coords =
      idxs.foldl (fun cs index => cs.set index (cs.getD index v3zero + mv)) g.coords
      from rfl]
    rw [foldl_set_length (fun cs index => cs.getD index v3zero + mv) idxs g.coords]
    exact h
  · intro κ g h
    simp [n_atoms, h]

/-- Witness for C10 at concrete states: a parsed XYZ file, a parsed COM
file, and the four mutations applied to a one-atom real geometry. -/
theorem c10_atom_coord_invariant_witness :
    ((⟨["C"], [⟨⟨0, -1⟩, ⟨0, -1⟩, ⟨0, -1⟩⟩], none, none⟩ : Geo (V3 Dec)).atoms.length =
      (⟨["C"], [⟨⟨0, -1⟩, ⟨0, -1⟩, ⟨0, -1⟩⟩], none, none⟩ : Geo (V3 Dec)).coords.length) ∧
    ((⟨["h\n", "\n"], ["t\n", "\n"], ["0 1\n"], ["C"],
        [⟨⟨10, -1⟩, ⟨20, -1⟩, ⟨30, -1⟩⟩], ["opt\n"]⟩ : COMstate).atoms.length =
      (⟨["h\n", "\n"], ["t\n", "\n"], ["0 1\n"], ["C"],
        [⟨⟨10, -1⟩, ⟨20, -1⟩, ⟨30, -1⟩⟩], ["opt\n"]⟩ : COMstate).coords.length) ∧
    ((center_on (⟨["C"], [⟨1, 0, 0⟩], none, none⟩ : Geo (V3 ℝ)) 0).atoms.length =
      (center_on (⟨["C"], [⟨1, 0, 0⟩], none, none⟩ : Geo (V3 ℝ)) 0).coords.length) ∧
    ((rotate_to_x_axis_on (⟨["C"], [⟨1, 0, 0⟩], none, none⟩ : Geo (V3 ℝ)) 0).atoms.length =
      (rotate_to_x_axis_on (⟨["C"], [⟨1, 0, 0⟩], none, none⟩ : Geo (V3 ℝ)) 0).coords.length) ∧
    ((center_and_rotate_on (⟨["C"], [⟨1, 0, 0⟩], none, none⟩ : Geo (V3 ℝ)) 0 0).atoms.length =
      (center_and_rotate_on (⟨["C"], [⟨1, 0, 0⟩], none, none⟩ : Geo (V3 ℝ)) 0 0).coords.length) ∧
    ((move_subset (⟨1, 2, 3⟩ : V3 ℝ) [0]
        (⟨["C"], [⟨1, 0, 0⟩], none, none⟩ : Geo (V3 ℝ))).atoms.length =
      (move_subset (⟨1, 2, 3⟩ : V3 ℝ) [0]
        (⟨["C"], [⟨1, 0, 0⟩], none, none⟩ : Geo (V3 ℝ))).coords.length) ∧
    n_atoms (⟨["C"], [⟨1, 0, 0⟩], none, none⟩ : Geo (V3 ℝ)) = some 1 := by
  refine ⟨c10_atom_coord_invariant.1 ["1\n", "c\n", "C 0.0 0.0 0.0\n"] _ (by decide),
    c10_atom_coord_invariant.2.1
      ["h\n", "\n", "t\n", "\n", "0 1\n", "C 1.0 2.0 3.0\n", "\n", "opt\n"] _ (by decide),
    c10_atom_coord_invariant.2.2.1 (⟨["C"], [⟨1, 0, 0⟩], none, none⟩ : Geo (V3 ℝ)) 0 rfl,
    c10_atom_coord_invariant.2.2.2.1 (⟨["C"], [⟨1, 0, 0⟩], none, none⟩ : Geo (V3 ℝ)) 0 rfl,
    c10_atom_coord_invariant.2.2.2.2.1 (⟨["C"], [⟨1, 0, 0⟩], none, none⟩ : Geo (V3 ℝ)) 0 0 rfl,
    c10_atom_coord_invariant.2.2.2.2.2.1 (⟨["C"], [⟨1, 0, 0⟩], none, none⟩ : Geo (V3 ℝ))
      ⟨1, 2, 3⟩ [0] rfl,
    c10_atom_coord_invariant.2.2.2.2.2.2 (V3 ℝ)
      (⟨["C"], [⟨1, 0, 0⟩], none, none⟩ : Geo (V3 ℝ)) rfl⟩
